import Mathlib

/-!
Formal model of the pycalc expression evaluator (src/pycalc.py).

The pipeline is modelled stage by stage, following the source:
`parse_expression` (tokenizer), `process_negative_numbers` (sign
normalizer), `expression_to_rpn` (shunting-yard converter) and
`calculate_rpn_expression` (RPN evaluator), composed by `calculate`.

Modelling conventions:
* Python floats are modelled by `PyFloat`: an exact rational together
  with the three non-finite values `inf`, `-inf` and `nan`.  IEEE
  rounding, overflow to infinity and signed zeros are not modelled;
  every claim below evaluates arithmetic only at points where binary64
  arithmetic is exact, so the rational value agrees with the float.
* Results that are irrational (fractional powers, inexact square
  roots) fall outside the rational model; the corresponding operations
  are left undefined (`none`) there.  No claim exercises those points.
* Python exceptions are modelled by `Except CalcError`; each
  constructor of `CalcError` corresponds to one distinct failure site
  of the source (its `raise` statements, plus the uncaught
  `IndexError` / `KeyError` / `TypeError` the interpreter can raise).
* The operation registry (`MODULE_CONSTANTS` / `MODULE_FUNCTIONS`) is
  built in the source by reflection over the host `math` module; the
  specification treats it as an external collaborator.  It is modelled
  from the spec by an explicit `Registry`, restricted to the constants
  of `math` and to the functions the claims exercise (`abs`, `hypot`
  with the spec's fixed arity-2 policy).
-/

namespace PyCalc

/-- One constructor per distinct failure of the source program:
the explicit `raise` sites of pycalc.py plus the uncaught interpreter
errors (IndexError, KeyError, TypeError) reachable from its code.
`outOfFuel` is an artefact of the fuel-bounded evaluation loop model
and is never the outcome of any run appearing in a theorem below. -/
inductive CalcError where
  | emptyExpression
  | noOpeningBracket
  | incorrectBrackets
  | unknownOperation
  | typeError
  | keyError
  | indexError
  | incorrectFunctionArgs
  | unaryFailure
  | incorrectOperands
  | incorrectExpression
  | outOfFuel
deriving DecidableEq

/-- Python float values: exact rationals plus the non-finite values. -/
inductive PyFloat where
  | finite : ℚ → PyFloat
  | inf
  | ninf
  | nan
deriving DecidableEq

/-- Negation of a Python float. -/
def pyNeg : PyFloat → PyFloat
  | .finite a => .finite (-a)
  | .inf => .ninf
  | .ninf => .inf
  | .nan => .nan

/-- Python float addition (`operator.add`). -/
def pyAdd : PyFloat → PyFloat → PyFloat
  | .nan, _ | _, .nan => .nan
  | .inf, .ninf | .ninf, .inf => .nan
  | .inf, _ | _, .inf => .inf
  | .ninf, _ | _, .ninf => .ninf
  | .finite a, .finite b => .finite (a + b)

/-- Python float subtraction (`operator.sub`). -/
def pySub (a b : PyFloat) : PyFloat := pyAdd a (pyNeg b)

/-- Python float multiplication (`operator.mul`). -/
def pyMul : PyFloat → PyFloat → PyFloat
  | .nan, _ | _, .nan => .nan
  | .inf, .inf | .ninf, .ninf => .inf
  | .inf, .ninf | .ninf, .inf => .ninf
  | .inf, .finite b => if b = 0 then .nan else if 0 < b then .inf else .ninf
  | .finite a, .inf => if a = 0 then .nan else if 0 < a then .inf else .ninf
  | .ninf, .finite b => if b = 0 then .nan else if 0 < b then .ninf else .inf
  | .finite a, .ninf => if a = 0 then .nan else if 0 < a then .ninf else .inf
  | .finite a, .finite b => .finite (a * b)

/-- Python float true division (`operator.truediv`); `none` models the
`ZeroDivisionError` raised on a zero divisor. -/
def pyDiv (a b : PyFloat) : Option PyFloat :=
  match a, b with
  | x, .finite q =>
    if q = 0 then none
    else
      match x with
      | .nan => some .nan
      | .finite p => some (.finite (p / q))
      | .inf => some (if 0 < q then .inf else .ninf)
      | .ninf => some (if 0 < q then .ninf else .inf)
  | .nan, _ | _, .nan => some .nan
  | .finite _, .inf | .finite _, .ninf => some (.finite 0)
  | .inf, .inf | .inf, .ninf | .ninf, .inf | .ninf, .ninf => some .nan

/-- Python float floor division (`operator.floordiv`); `none` models
the `ZeroDivisionError` raised on a zero divisor. -/
def pyFloorDiv (a b : PyFloat) : Option PyFloat :=
  match a, b with
  | x, .finite q =>
    if q = 0 then none
    else
      match x with
      | .nan => some .nan
      | .finite p => some (.finite ((⌊p / q⌋ : ℤ) : ℚ))
      | .inf | .ninf => some .nan
  | .nan, _ | _, .nan => some .nan
  | .inf, _ | .ninf, _ => some .nan
  | .finite p, .inf => some (.finite (if p < 0 then -1 else 0))
  | .finite p, .ninf => some (.finite (if 0 < p then -1 else 0))

/-- Python float modulo (`operator.mod`); `none` models the
`ZeroDivisionError` raised on a zero divisor. -/
def pyMod (a b : PyFloat) : Option PyFloat :=
  match a, b with
  | x, .finite q =>
    if q = 0 then none
    else
      match x with
      | .nan => some .nan
      | .finite p => some (.finite (p - q * (⌊p / q⌋ : ℤ)))
      | .inf | .ninf => some .nan
  | .nan, _ | _, .nan => some .nan
  | .inf, _ | .ninf, _ => some .nan
  | .finite p, .inf => some (if 0 ≤ p then .finite p else .inf)
  | .finite p, .ninf => some (if p ≤ 0 then .finite p else .ninf)

/-- Python float exponentiation (`operator.pow`); `none` models the
`ZeroDivisionError` on `0 ** negative`, and also marks the points the
rational model leaves undefined (fractional exponents, whose float or
complex results are irrational). -/
def pyPow (a b : PyFloat) : Option PyFloat :=
  if a = .finite 1 then some (.finite 1)
  else if b = .finite 0 then some (.finite 1)
  else
    match a, b with
    | .nan, _ | _, .nan => some .nan
    | .finite p, .finite q =>
      if q.den = 1 then
        if p = 0 ∧ q < 0 then none
        else some (.finite (p ^ q.num))
      else none
    | .inf, .finite q => some (if 0 < q then .inf else .finite 0)
    | .ninf, .finite q =>
      if q.den = 1 then
        if 0 < q then some (if q.num % 2 = 0 then .inf else .ninf)
        else some (.finite 0)
      else some (if 0 < q then .inf else .finite 0)
    | .finite p, .inf => some (if p = -1 then .finite 1 else if p < -1 ∨ 1 < p then .inf else .finite 0)
    | .finite p, .ninf => some (if p = -1 then .finite 1 else if p < -1 ∨ 1 < p then .finite 0 else .inf)
    | .inf, .inf => some .inf
    | .inf, .ninf => some (.finite 0)
    | .ninf, .inf => some .inf
    | .ninf, .ninf => some (.finite 0)

/-- Three-way comparison of Python floats; `none` when `nan` is
involved (every ordering comparison with `nan` is false, `==` is
false, `!=` is true). -/
def pyCmp : PyFloat → PyFloat → Option Ordering
  | .nan, _ | _, .nan => none
  | .finite p, .finite q => some (compare p q)
  | .inf, .inf => some .eq
  | .ninf, .ninf => some .eq
  | .inf, _ => some .gt
  | _, .inf => some .lt
  | .ninf, _ => some .lt
  | _, .ninf => some .gt

/-- A value on the evaluation stack: a float or a bool (Python ints,
produced only by `round`/bool arithmetic, are folded into `finite`). -/
inductive PyVal where
  | num : PyFloat → PyVal
  | bool : Bool → PyVal
deriving DecidableEq

/-- Numeric coercion Python applies when a bool meets an arithmetic or
comparison operator (`True` is 1, `False` is 0). -/
def PyVal.toF : PyVal → PyFloat
  | .num f => f
  | .bool b => .finite (if b then 1 else 0)

/-- Python unary minus on a stack value (`-True` is `-1`). -/
def pyNegVal : PyVal → PyVal
  | .num f => .num (pyNeg f)
  | .bool b => .num (.finite (-(if b then 1 else 0)))

/-- Keys of `ARITHMETICAL_OPERATIONS` in pycalc.py, in source order. -/
def ARITH_KEYS : List String := ["+", "-", "*", "/", "//", "%", "^", "-u"]

/-- Keys of `COMPARISON_OPERATIONS` in pycalc.py. -/
def COMP_KEYS : List String := ["==", "!=", "<", ">", "<=", ">="]

/-- `RIGHT_ASSOCIATIVE` in pycalc.py. -/
def RIGHT_ASSOC : List String := ["^"]

/-- The `PRECEDENCE` table of pycalc.py, as an association list. -/
def PRECEDENCE : List (String × Nat) :=
  [("==", 0), ("!=", 0), ("<", 0), (">", 0),
   ("<=", 0), (">=", 0), ("(", 0), (")", 0),
   ("+", 1), ("-", 1), ("*", 2), ("/", 2),
   ("//", 2), ("%", 2), ("^", 3), ("-u", 4)]

/-- The value of `ARITHMETICAL_OPERATIONS[s]` applied to two stack
values; `none` models an exception raised by the operation (including
`"-u"`, which the source maps to the non-callable integer 0). -/
def arithApply (s : String) (x y : PyVal) : Option PyVal :=
  let a := x.toF
  let b := y.toF
  if s = "+" then some (.num (pyAdd a b))
  else if s = "-" then some (.num (pySub a b))
  else if s = "*" then some (.num (pyMul a b))
  else if s = "/" then (pyDiv a b).map .num
  else if s = "//" then (pyFloorDiv a b).map .num
  else if s = "%" then (pyMod a b).map .num
  else if s = "^" then (pyPow a b).map .num
  else none

/-- The value of `COMPARISON_OPERATIONS[s]` applied to two stack
values (comparisons never raise on numbers/bools). -/
def compApply (s : String) (x y : PyVal) : Option PyVal :=
  let c := pyCmp x.toF y.toF
  if s = "==" then some (.bool (c = some .eq))
  else if s = "!=" then some (.bool (c ≠ some .eq))
  else if s = "<" then some (.bool (c = some .lt))
  else if s = ">" then some (.bool (c = some .gt))
  else if s = "<=" then some (.bool (c = some .lt ∨ c = some .eq))
  else if s = ">=" then some (.bool (c = some .gt ∨ c = some .eq))
  else none

/-- Operator dispatch of the evaluator (pycalc.py lines 158-161):
arithmetic table first, comparison table otherwise. -/
def applyBin (s : String) (x y : PyVal) : Option PyVal :=
  if s ∈ ARITH_KEYS then arithApply s x y else compApply s x y

/-- The operation registry: an external collaborator of the core
(spec §6).  `constants` maps names to numeric values, `funcNames`
lists the callable names and `funcApply` applies one (`none` models
the exception a call raises, including an argument count the
function's arity policy rejects). -/
structure Registry where
  constants : List (String × PyFloat)
  funcNames : List String
  funcApply : String → List PyVal → Option PyVal

/-- Exact rational square root, `none` when the square root is
irrational (outside the rational float model). -/
def ratSqrt (q : ℚ) : Option ℚ :=
  if q < 0 then none
  else
    let n := q.num.toNat
    let d := q.den
    let sn := Nat.sqrt n
    let sd := Nat.sqrt d
    if sn * sn = n ∧ sd * sd = d then some ((sn : ℚ) / (sd : ℚ)) else none

/-- Python `abs` on a float. -/
def pyAbs : PyFloat → PyFloat
  | .finite p => .finite |p|
  | .inf | .ninf => .inf
  | .nan => .nan

/-- `math.hypot` on two floats (exact where the result is rational). -/
def pyHypot (a b : PyFloat) : Option PyFloat :=
  match a, b with
  | .inf, _ | .ninf, _ | _, .inf | _, .ninf => some .inf
  | .nan, _ | _, .nan => some .nan
  | .finite p, .finite q => (ratSqrt (p * p + q * q)).map .finite

/-- Modelled from the spec: the registry's function table
(`MODULE_FUNCTIONS` is built in the source by reflection over the host
`math` module, which the spec scopes out as a collaborator with an
arity policy).  Restricted to the functions the claims exercise:
`abs` (one argument) and `hypot` (fixed arity 2 per spec §8). -/
def mathApply : String → List PyVal → Option PyVal
  | "abs", [x] => some (.num (pyAbs x.toF))
  | "hypot", [x, y] => (pyHypot x.toF y.toF).map .num
  | _, _ => none

/-- Modelled from the spec: the registry built from the host `math`
module.  The constant names are exactly the float members of `math`;
the transcendental values `e`, `pi`, `tau` are given their binary64
values as exact rationals (no claim evaluates them). -/
def mathRegistry : Registry where
  constants :=
    [("e", .finite (6121026514868073 / 2251799813685248)),
     ("inf", .inf),
     ("nan", .nan),
     ("pi", .finite (884279719003555 / 281474976710656)),
     ("tau", .finite (884279719003555 / 140737488355328))]
  funcNames := ["abs", "hypot"]
  funcApply := mathApply

/-- The whitespace class of the regex `\s` (ASCII). -/
def isPySpace (c : Char) : Bool :=
  c = ' ' || c = '\t' || c = '\n' || c = '\r' || c = '\x0b' || c = '\x0c'

/-- The single-character delimiter class `[\s(),<>+%*^-]` of the
tokenizer's regex. -/
def isSingleDelim (c : Char) : Bool :=
  isPySpace c || c = '(' || c = ')' || c = ',' || c = '<' || c = '>' ||
    c = '+' || c = '%' || c = '*' || c = '^' || c = '-'

/-- First characters of the two-character operators `[!><=]=`. -/
def isCmpFirst (c : Char) : Bool :=
  c = '!' || c = '>' || c = '<' || c = '='

/-- Flush the (reversed) run of non-delimiter characters. -/
def flushAcc (acc : List Char) : List String :=
  if acc.isEmpty then [] else [String.mk acc.reverse]

/-- `re.split` with the tokenizer's pattern, keeping the delimiter
matches: alternatives are tried in source order at each position
(`[!><=]=`, then the single-character class, then `/{1,2}` greedily).
The first argument accumulates the current non-delimiter run. -/
def pySplitGo : List Char → List Char → List String
  | acc, [] => flushAcc acc
  | acc, [c] =>
    if isSingleDelim c then flushAcc acc ++ [String.mk [c]]
    else if c = '/' then flushAcc acc ++ ["/"]
    else flushAcc (c :: acc)
  | acc, c1 :: c2 :: rest =>
    if isCmpFirst c1 && c2 = '=' then
      flushAcc acc ++ [String.mk [c1, '=']] ++ pySplitGo [] rest
    else if isSingleDelim c1 then
      flushAcc acc ++ [String.mk [c1]] ++ pySplitGo [] (c2 :: rest)
    else if c1 = '/' then
      if c2 = '/' then flushAcc acc ++ ["//"] ++ pySplitGo [] rest
      else flushAcc acc ++ ["/"] ++ pySplitGo [] (c2 :: rest)
    else pySplitGo (c1 :: acc) (c2 :: rest)

/-- `str.replace(' ', '')`. -/
def removeSpaces (s : String) : String :=
  String.mk (s.data.filter (fun c => c ≠ ' '))

/-- `parse_expression` of pycalc.py: reject an empty input string,
split via the regex, strip spaces from the pieces and drop the empty
ones (`filter(None, ...)`). -/
def parse_expression (s : String) : Except CalcError (List String) :=
  if s = "" then .error .emptyExpression
  else .ok (((pySplitGo [] s.data).map removeSpaces).filter (fun t => t ≠ ""))

/-- A digit part of a Python float literal may contain single
underscores between digits; this checks there is no doubled one. -/
def noDoubleUnderscore : List Char → Bool
  | c1 :: c2 :: rest => !(c1 = '_' && c2 = '_') && noDoubleUnderscore (c2 :: rest)
  | _ => true

/-- ASCII digit test. -/
def isDigitChar (c : Char) : Bool := '0' ≤ c && c ≤ '9'

/-- A valid `digitpart` of the Python float grammar: nonempty, only
digits and underscores, starting and ending with a digit, no doubled
underscore. -/
def validDigitPart (l : List Char) : Bool :=
  !l.isEmpty &&
  l.all (fun c => isDigitChar c || c = '_') &&
  (match l.head? with | some c => isDigitChar c | none => false) &&
  (match l.getLast? with | some c => isDigitChar c | none => false) &&
  noDoubleUnderscore l

/-- The digits of a digit part (underscores removed). -/
def digitsOf (l : List Char) : List Char := l.filter isDigitChar

/-- Numeric value of a digit string. -/
def natOfDigits (l : List Char) : Nat :=
  l.foldl (fun acc c => acc * 10 + (c.toNat - 48)) 0

/-- Split a character list at the first character satisfying `p`;
the second component is `none` when no such character occurs. -/
def splitOnChar (p : Char → Bool) : List Char → List Char × Option (List Char)
  | [] => ([], none)
  | c :: rest =>
    if p c then ([], some rest)
    else
      let (a, b) := splitOnChar p rest
      (c :: a, b)

/-- Exponent part of a float literal: optional sign, then digits. -/
def parseExpPart (l : List Char) : Option Int :=
  let (neg, body) :=
    match l with
    | '+' :: r => (false, r)
    | '-' :: r => (true, r)
    | r => (false, r)
  if validDigitPart body then
    let n : Int := natOfDigits (digitsOf body)
    some (if neg then -n else n)
  else none

/-- Mantissa of a float literal: `digitpart`, `digitpart.`,
`.digitpart` or `digitpart.digitpart`, with at least one digit. -/
def parseMantissa (l : List Char) : Option ℚ :=
  let (ip, fpOpt) := splitOnChar (fun c => c = '.') l
  let fp := fpOpt.getD []
  let ipOk := ip.isEmpty || validDigitPart ip
  let fpOk := fp.isEmpty || validDigitPart fp
  if ipOk && fpOk && !(ip.isEmpty && fp.isEmpty) then
    let fd := digitsOf fp
    some ((natOfDigits (digitsOf ip) : ℚ) + (natOfDigits fd : ℚ) / (10 : ℚ) ^ fd.length)
  else none

/-- The host float parser `float(token)` (pycalc.py line 76): accepts
decimal literals with optional fraction and exponent, underscores
between digits, and the case-insensitive words `inf`, `infinity` and
`nan`, with an optional leading sign; `none` models `ValueError`.
Values are exact rationals (binary64 rounding and overflow to
infinity are not modelled; the claims only use exactly representable
literals). -/
def pyFloatParse (t : String) : Option PyFloat :=
  let cs := ((t.data.dropWhile isPySpace).reverse.dropWhile isPySpace).reverse
  let (neg, body) :=
    match cs with
    | '+' :: r => (false, r)
    | '-' :: r => (true, r)
    | r => (false, r)
  let low := body.map Char.toLower
  if low = "inf".data ∨ low = "infinity".data then
    some (if neg then .ninf else .inf)
  else if low = "nan".data then some .nan
  else
    let (mant, expOpt) := splitOnChar (fun c => c = 'e' || c = 'E') body
    match parseMantissa mant with
    | none => none
    | some m =>
      match expOpt with
      | none => some (.finite (if neg then -m else m))
      | some l =>
        match parseExpPart l with
        | none => none
        | some e =>
          let q := if 0 ≤ e then m * (10 : ℚ) ^ e.toNat else m / (10 : ℚ) ^ (-e).toNat
          some (.finite (if neg then -q else q))

/-- The sign normalizer's check on the token before a collapsed run
(pycalc.py lines 57-58): an arithmetical operation, `(` or `,`. -/
def prevTriggers : Option String → Bool
  | some p => p ∈ ARITH_KEYS || p = "(" || p = ","
  | none => false

/-- The `while` loop of `process_negative_numbers`, with explicit
fuel (the loop always terminates from the entry state; the fuel
bound is proved sufficient in `pnn_eq_collapseRuns`).  State:
current list, `index`, `minus_counter`, `sign_counter`. -/
def pnnGo : Nat → List String → Nat → Nat → Nat → List String
  | 0, e, _, _, _ => e
  | fuel + 1, e, index, minusCount, signCount =>
    match e.get? index with
    | none => e
    | some t =>
      if t = "-" then pnnGo fuel e (index + 1) (minusCount + 1) (signCount + 1)
      else if t = "+" then pnnGo fuel e (index + 1) minusCount (signCount + 1)
      else if signCount ≠ 0 then
        let e1 := e.take (index - signCount + 1) ++ e.drop index
        let i1 := index - signCount
        let c := if minusCount % 2 = 0 then "+" else "-"
        let e2 := e1.set i1 c
        if i1 = 0 || prevTriggers (e2.get? (i1 - 1)) then
          if c = "-" then pnnGo fuel (e2.set i1 "-u") (i1 + 1) 0 0
          else pnnGo fuel (e2.eraseIdx i1) (i1 + 1) 0 0
        else pnnGo fuel e2 (i1 + 1) 0 0
      else pnnGo fuel e (index + 1) minusCount signCount

/-- `process_negative_numbers` of pycalc.py. -/
def process_negative_numbers (e : List String) : List String :=
  pnnGo (2 * e.length + 1) e 0 0 0

/-- Sign tokens of the normalizer. -/
def isSignTok (t : String) : Bool := t = "-" || t = "+"

/-- Unary-context test phrased on the previously emitted token
(`none` at the start of the expression); same trigger set as the
source: arithmetical operators (including `-u`), `(` and `,`. -/
def unaryContext : Option String → Bool
  | none => true
  | some p => p ∈ ARITH_KEYS || p = "(" || p = ","

/-- Run-based reading of the sign normalizer: accumulate a run of
consecutive sign tokens; on the next non-sign token collapse the run
to one sign (`+` for an even number of minuses), emitted as `-u`
or dropped in a unary context and kept as a binary operator
otherwise; a trailing run at end of input is left verbatim. -/
def collapseGo (prev : Option String) (run : List String) : List String → List String
  | [] => run
  | t :: rest =>
    if isSignTok t then collapseGo prev (run ++ [t]) rest
    else if run.isEmpty then t :: collapseGo (some t) [] rest
    else
      let c := if (run.countP (fun x => x = "-")) % 2 = 0 then "+" else "-"
      if unaryContext prev then
        if c = "-" then "-u" :: t :: collapseGo (some t) [] rest
        else t :: collapseGo (some t) [] rest
      else c :: t :: collapseGo (some t) [] rest

/-- Run-collapsing normalizer, entry point. -/
def collapseRuns (l : List String) : List String := collapseGo none [] l

/-- Unary-context test as claim C1 words it: the preceding token may
also be a comparison operator. -/
def unaryContextClaim : Option String → Bool
  | none => true
  | some p => p ∈ ARITH_KEYS || p ∈ COMP_KEYS || p = "(" || p = ","

/-- The normalizer as claim C1 describes it (identical to
`collapseGo` except for the unary-context test). -/
def collapseClaimGo (prev : Option String) (run : List String) : List String → List String
  | [] => run
  | t :: rest =>
    if isSignTok t then collapseClaimGo prev (run ++ [t]) rest
    else if run.isEmpty then t :: collapseClaimGo (some t) [] rest
    else
      let c := if (run.countP (fun x => x = "-")) % 2 = 0 then "+" else "-"
      if unaryContextClaim prev then
        if c = "-" then "-u" :: t :: collapseClaimGo (some t) [] rest
        else t :: collapseClaimGo (some t) [] rest
      else c :: t :: collapseClaimGo (some t) [] rest

/-- Claim C1's normalizer, entry point. -/
def collapseClaim (l : List String) : List String := collapseClaimGo none [] l

/-- An element of the output (RPN) stream or of the evaluation list:
a value, an operator/punctuation string, or a function marker
(`[name, arity]` in the source). -/
inductive Elem where
  | val : PyVal → Elem
  | str : String → Elem
  | marker : String → Nat → Elem
deriving DecidableEq

/-- An operator-stack entry of the converter: a string (operator or
`(`) or a function marker. -/
inductive StackEntry where
  | op : String → StackEntry
  | func : String → Nat → StackEntry
deriving DecidableEq

/-- Moving an entry from the operator stack into the output. -/
def entryToElem : StackEntry → Elem
  | .op s => .str s
  | .func f n => .marker f n

/-- `PRECEDENCE[operator_stack[-1]]`: a function marker (a Python
list) is unhashable, so the lookup raises `TypeError`; an unknown
string would raise `KeyError`. -/
def precOf : StackEntry → Except CalcError Nat
  | .op s =>
    match PRECEDENCE.lookup s with
    | some p => .ok p
    | none => .error .keyError
  | .func _ _ => .error .typeError

/-- The pop loop run for an incoming arithmetic operator (pycalc.py
lines 82-87): stop when `(token in RIGHT_ASSOCIATIVE and not
prec(top) > prec(token)) or not prec(top) >= prec(token)`, otherwise
pop the top to the output.  The stack's head is its top. -/
def popArith (tok : String) : List StackEntry → List Elem →
    Except CalcError (List Elem × List StackEntry)
  | [], res => .ok (res, [])
  | top :: rest, res =>
    match precOf top, PRECEDENCE.lookup tok with
    | .ok pt, some pk =>
      if (tok ∈ RIGHT_ASSOC ∧ ¬pt > pk) ∨ ¬pt ≥ pk then .ok (res, top :: rest)
      else popArith tok rest (res ++ [entryToElem top])
    | .error err, _ => .error err
    | .ok _, none => .error .keyError

/-- The pop loop run for an incoming comparison operator (line 90):
pop until the top is `(` or `,` (a function marker compares unequal
to both strings, so it would be popped). -/
def popComp : List StackEntry → List Elem → List Elem × List StackEntry
  | [], res => (res, [])
  | top :: rest, res =>
    if top = .op "(" ∨ top = .op "," then (res, top :: rest)
    else popComp rest (res ++ [entryToElem top])

/-- The pop loop shared by `)` and `,` (lines 105, 114): pop until
the top is `(`. -/
def popTilParen : List StackEntry → List Elem → List Elem × List StackEntry
  | [], res => (res, [])
  | top :: rest, res =>
    if top = .op "(" then (res, top :: rest)
    else popTilParen rest (res ++ [entryToElem top])

/-- The `,` handler's walk outward from the stack top to the nearest
function marker, incrementing its arity; `none` models the
`IndexError` raised when no marker exists (lines 116-119). -/
def bumpNearestFunc : List StackEntry → Option (List StackEntry)
  | [] => none
  | .func f n :: rest => some (.func f (n + 1) :: rest)
  | .op s :: rest => (bumpNearestFunc rest).map (fun l => .op s :: l)

/-- The `)` handler (lines 104-111): pop to the `(`, fail if the
stack empties first, discard the `(`, then pop a function marker
found on the new top. -/
def rparenStep (res : List Elem) (ops : List StackEntry) :
    Except CalcError (List Elem × List StackEntry) :=
  let (res1, ops1) := popTilParen ops res
  match ops1 with
  | [] => .error .incorrectBrackets
  | _ :: ops2 =>
    match ops2 with
    | .func f n :: ops3 => .ok (res1 ++ [.marker f n], ops3)
    | _ => .ok (res1, ops2)

/-- The `,` handler (lines 112-119). -/
def commaStep (res : List Elem) (ops : List StackEntry) :
    Except CalcError (List Elem × List StackEntry) :=
  let (res1, ops1) := popTilParen ops res
  match bumpNearestFunc ops1 with
  | none => .error .indexError
  | some ops2 => .ok (res1, ops2)

/-- The token loop of `expression_to_rpn`: try `float(token)` first,
then the `elif` chain in source order (arithmetic, comparison,
constant, function — which must be followed by `(`, reading the next
token raises `IndexError` at end of input —, `(`, `)`, `,`, unknown).
At end of input the remaining operator stack is drained top-first
into the output. -/
def toRpnGo (reg : Registry) : List String → List Elem → List StackEntry →
    Except CalcError (List Elem)
  | [], res, ops => .ok (res ++ ops.map entryToElem)
  | t :: rest, res, ops =>
    match pyFloatParse t with
    | some v => toRpnGo reg rest (res ++ [.val (.num v)]) ops
    | none =>
      if t ∈ ARITH_KEYS then
        match popArith t ops res with
        | .error err => .error err
        | .ok (res1, ops1) => toRpnGo reg rest res1 (.op t :: ops1)
      else if t ∈ COMP_KEYS then
        let (res1, ops1) := popComp ops res
        toRpnGo reg rest res1 (.op t :: ops1)
      else
        match reg.constants.lookup t with
        | some v => toRpnGo reg rest (res ++ [.val (.num v)]) ops
        | none =>
          if t ∈ reg.funcNames then
            match rest.head? with
            | none => .error .indexError
            | some nxt =>
              if nxt = "(" then toRpnGo reg rest res (.func t 1 :: ops)
              else .error .noOpeningBracket
          else if t = "(" then toRpnGo reg rest res (.op "(" :: ops)
          else if t = ")" then
            match rparenStep res ops with
            | .error err => .error err
            | .ok (res1, ops1) => toRpnGo reg rest res1 ops1
          else if t = "," then
            match commaStep res ops with
            | .error err => .error err
            | .ok (res1, ops1) => toRpnGo reg rest res1 ops1
          else .error .unknownOperation

/-- `expression_to_rpn` of pycalc.py. -/
def expression_to_rpn (reg : Registry) (e : List String) : Except CalcError (List Elem) :=
  toRpnGo reg e [] []

/-- Python list-index resolution: non-negative indices are bounds
checked, negative indices count from the end; `none` models
`IndexError`. -/
def pyIdx (n : Nat) (i : Int) : Option Nat :=
  if 0 ≤ i then (if i < (n : Int) then some i.toNat else none)
  else (if 0 ≤ i + (n : Int) then some (i + (n : Int)).toNat else none)

/-- `l[i]` with Python semantics. -/
def pyGet {α : Type} (l : List α) (i : Int) : Option α :=
  (pyIdx l.length i).bind (fun k => l.get? k)

/-- `l[i] = a` with Python semantics. -/
def pySet {α : Type} (l : List α) (i : Int) (a : α) : Option (List α) :=
  (pyIdx l.length i).map (fun k => l.set k a)

/-- `del l[i]` with Python semantics. -/
def pyDel {α : Type} (l : List α) (i : Int) : Option (List α) :=
  (pyIdx l.length i).map (fun k => l.eraseIdx k)

/-- Python slice-bound clamping. -/
def pyClamp (n : Nat) (i : Int) : Nat :=
  if i < 0 then (max 0 (i + (n : Int))).toNat else min i.toNat n

/-- `l[:i]` with Python semantics. -/
def pySliceTo {α : Type} (l : List α) (i : Int) : List α :=
  l.take (pyClamp l.length i)

/-- `l[i:]` with Python semantics. -/
def pySliceFrom {α : Type} (l : List α) (i : Int) : List α :=
  l.drop (pyClamp l.length i)

/-- Gathering a function's arguments (pycalc.py lines 136-140):
`rpn[index-arity], ..., rpn[index-1]` — original left-to-right
order; `none` models any exception inside the surrounding `try`
(an index error, or a non-value argument making the call raise). -/
def collectArgs (rpn : List Elem) (index : Int) (n : Nat) : Option (List PyVal) :=
  (List.range n).mapM (fun k =>
    match pyGet rpn (index - (n : Int) + (k : Int)) with
    | some (.val v) => some v
    | _ => none)

/-- One iteration of the `while len(rpn) > 1` loop of
`calculate_rpn_expression` (pycalc.py lines 131-169): returns the
updated list and index, or the error the iteration raises.  Each
branch mirrors the source in-place list surgery (function
application, `-u`, binary operator, skip). -/
def evalStep (reg : Registry) (rpn : List Elem) (index : Int) :
    Except CalcError (List Elem × Int) :=
  match pyGet rpn index with
  | none => .error .indexError
  | some (.marker f n) =>
    if f ∈ reg.funcNames then
      match collectArgs rpn index n with
      | none => .error .incorrectFunctionArgs
      | some args =>
        match reg.funcApply f args with
        | none => .error .incorrectFunctionArgs
        | some r =>
          .ok (pySliceTo rpn (index - (n : Int)) ++ [.val r] ++ pySliceFrom rpn (index + 1),
            index - (n : Int))
    else .error .incorrectFunctionArgs
  | some (.str s) =>
    if s = "-u" then
      match pyGet rpn (index - 1) with
      | some (.val v) =>
        match pySet rpn (index - 1) (.val (pyNegVal v)) with
        | none => .error .unaryFailure
        | some rpn1 =>
          match pyDel rpn1 index with
          | none => .error .unaryFailure
          | some rpn2 => .ok (rpn2, index - 1)
      | _ => .error .unaryFailure
    else if s ∈ ARITH_KEYS ∨ s ∈ COMP_KEYS then
      match pyGet rpn (index - 2), pyGet rpn (index - 1) with
      | some (.val a), some (.val b) =>
        match applyBin s a b with
        | none => .error .incorrectOperands
        | some r =>
          .ok (pySliceTo rpn (index - 2) ++ [.val r] ++ pySliceFrom rpn (index + 1), index - 2)
      | _, _ => .error .incorrectOperands
    else .ok (rpn, index + 1)
  | some (.val _) => .ok (rpn, index + 1)

/-- After the loop (pycalc.py lines 171-173): a single value is the
result, a non-value residue is the `Incorrect expression` failure,
and `rpn[0]` on an empty list raises `IndexError`. -/
def evalFinish : List Elem → Except CalcError PyVal
  | [] => .error .indexError
  | .val v :: _ => .ok v
  | _ => .error .incorrectExpression

/-- The `while len(rpn) > 1` loop of `calculate_rpn_expression`,
with explicit fuel (the artificial `outOfFuel` never occurs on the
runs the theorems below evaluate). -/
def evalGo (reg : Registry) : Nat → List Elem → Int → Except CalcError PyVal
  | 0, _, _ => .error .outOfFuel
  | fuel + 1, rpn, index =>
    if rpn.length > 1 then
      match evalStep reg rpn index with
      | .error e => .error e
      | .ok (rpn1, index1) => evalGo reg fuel rpn1 index1
    else evalFinish rpn

/-- `calculate_rpn_expression` of pycalc.py.  The fuel is generous
for every terminating run of the source loop on the inputs the
claims evaluate; exhausting it yields the artificial `outOfFuel`. -/
def calculate_rpn_expression (reg : Registry) (rpn : List Elem) : Except CalcError PyVal :=
  evalGo reg ((rpn.length + 1) * (rpn.length + 2)) rpn 0

/-- `calculate` of pycalc.py: the full pipeline on a raw string. -/
def calculate (s : String) : Except CalcError PyVal := do
  let toks ← parse_expression s
  let toks2 := process_negative_numbers toks
  let rpn ← expression_to_rpn mathRegistry toks2
  calculate_rpn_expression mathRegistry rpn

/-- A registry with a constant named `inf` bound to an arbitrary
finite value and no functions, used to separate the float-literal
path from the constant-lookup path (claim C10). -/
def clashRegistry : Registry where
  constants := [("inf", .finite 999)]
  funcNames := []
  funcApply := fun _ _ => none

/-! ## List bookkeeping lemmas for the normalizer proof -/

theorem getElem?_append_len {α : Type} (l r : List α) :
    (l ++ r)[l.length]? = r.head? := by
  induction l with
  | nil => cases r <;> simp
  | cons a l ihl => simpa using ihl

theorem take_append_len_add {α : Type} (l r : List α) (n : Nat) :
    (l ++ r).take (l.length + n) = l ++ r.take n := by
  induction l with
  | nil => simp
  | cons a l ihl => simpa [Nat.succ_add] using ihl

theorem set_append_len {α : Type} (l : List α) (x : α) (r : List α) (a : α) :
    (l ++ x :: r).set l.length a = l ++ a :: r := by
  induction l with
  | nil => rfl
  | cons b l ihl => simp [ihl]

theorem eraseIdx_append_len {α : Type} (l : List α) (x : α) (r : List α) :
    (l ++ x :: r).eraseIdx l.length = l ++ r := by
  induction l with
  | nil => rfl
  | cons b l ihl => simpa [List.eraseIdx] using ihl

theorem getElem?_pred_append {α : Type} (l r : List α) (h : l ≠ []) :
    (l ++ r)[l.length - 1]? = l.getLast? := by
  induction l with
  | nil => exact absurd rfl h
  | cons a l ihl =>
    cases l with
    | nil => simp
    | cons b l' =>
      have h2 := ihl (by simp)
      simp only [List.cons_append, List.length_cons, Nat.add_sub_cancel] at h2 ⊢
      rw [List.getLast?_cons_cons]
      simpa using h2

/-! ## The sign normalizer computes the run-collapsing function -/

theorem collapseGo_sign (prev : Option String) (run : List String) (t : String)
    (rest : List String) (h : isSignTok t = true) :
    collapseGo prev run (t :: rest) = collapseGo prev (run ++ [t]) rest := by
  simp [collapseGo, h]

theorem collapseGo_nonsign_nil (prev : Option String) (t : String)
    (rest : List String) (h : isSignTok t = false) :
    collapseGo prev [] (t :: rest) = t :: collapseGo (some t) [] rest := by
  simp [collapseGo, h]

theorem collapseGo_resolve (prev : Option String) (h0 : String) (tr : List String)
    (t : String) (rest : List String) (hns : isSignTok t = false) :
    collapseGo prev (h0 :: tr) (t :: rest) =
      (if ((h0 :: tr).countP (fun x => x = "-")) % 2 = 0 then
        (if unaryContext prev then t :: collapseGo (some t) [] rest
         else "+" :: t :: collapseGo (some t) [] rest)
       else
        (if unaryContext prev then "-u" :: t :: collapseGo (some t) [] rest
         else "-" :: t :: collapseGo (some t) [] rest)) := by
  by_cases hc : ((h0 :: tr).countP (fun x => x = "-")) % 2 = 0 <;>
    by_cases hu : unaryContext prev <;>
      simp [collapseGo, hns, hc, hu]

theorem pnnGo_eq_collapseGo (fuel : Nat) :
    ∀ (done run rest : List String),
      run.length + 2 * rest.length + 1 ≤ fuel →
      pnnGo fuel (done ++ run ++ rest) (done.length + run.length)
        (run.countP (fun x => x = "-")) run.length
        = done ++ collapseGo done.getLast? run rest := by
  induction fuel with
  | zero => intro done run rest hf; omega
  | succ fuel ih =>
    intro done run rest hf
    cases rest with
    | nil =>
      have hg : (done ++ run ++ ([] : List String)).get? (done.length + run.length) = none := by
        rw [List.get?_eq_getElem?]
        apply List.getElem?_eq_none
        simp
      rw [pnnGo, hg]
      simp [collapseGo]
    | cons t rest' =>
      have hg : (done ++ run ++ t :: rest').get? (done.length + run.length) = some t := by
        rw [List.get?_eq_getElem?]
        have h1 := getElem?_append_len (done ++ run) (t :: rest')
        simpa using h1
      by_cases ht1 : t = "-"
      · subst ht1
        have hf2 : (run ++ ["-"]).length + 2 * rest'.length + 1 ≤ fuel := by
          simp at hf ⊢; omega
        have hstep : pnnGo (fuel + 1) (done ++ run ++ "-" :: rest') (done.length + run.length)
            (run.countP (fun x => x = "-")) run.length
            = pnnGo fuel (done ++ run ++ "-" :: rest') (done.length + run.length + 1)
              (run.countP (fun x => x = "-") + 1) (run.length + 1) := by
          rw [pnnGo, hg]
          rfl
        rw [hstep, collapseGo_sign _ _ _ _ (by simp [isSignTok])]
        have ih2 := ih done (run ++ ["-"]) rest' hf2
        have hL : done ++ run ++ "-" :: rest' = done ++ (run ++ ["-"]) ++ rest' := by simp
        have hI : done.length + run.length + 1 = done.length + (run ++ ["-"]).length := by
          simp only [List.length_append, List.length_cons, List.length_nil]
          omega
        have hM : run.countP (fun x => x = "-") + 1
            = (run ++ ["-"]).countP (fun x => x = "-") := by
          simp [List.countP_append, List.countP_cons]
        have hS : run.length + 1 = (run ++ ["-"]).length := by simp
        rw [hL, hI, hM, hS]
        exact ih2
      · by_cases ht2 : t = "+"
        · subst ht2
          have hf2 : (run ++ ["+"]).length + 2 * rest'.length + 1 ≤ fuel := by
            simp at hf ⊢; omega
          have hstep : pnnGo (fuel + 1) (done ++ run ++ "+" :: rest') (done.length + run.length)
              (run.countP (fun x => x = "-")) run.length
              = pnnGo fuel (done ++ run ++ "+" :: rest') (done.length + run.length + 1)
                (run.countP (fun x => x = "-")) (run.length + 1) := by
            rw [pnnGo, hg]
            rfl
          rw [hstep, collapseGo_sign _ _ _ _ (by simp [isSignTok])]
          have ih2 := ih done (run ++ ["+"]) rest' hf2
          have hL : done ++ run ++ "+" :: rest' = done ++ (run ++ ["+"]) ++ rest' := by simp
          have hI : done.length + run.length + 1 = done.length + (run ++ ["+"]).length := by
            simp only [List.length_append, List.length_cons, List.length_nil]
            omega
          have hM : run.countP (fun x => x = "-")
              = (run ++ ["+"]).countP (fun x => x = "-") := by
            simp [List.countP_append, List.countP_cons]
          have hS : run.length + 1 = (run ++ ["+"]).length := by simp
          rw [hL, hI, hM, hS]
          exact ih2
        · have hns : isSignTok t = false := by simp [isSignTok, ht1, ht2]
          cases run with
          | nil =>
            simp only [List.append_nil, List.nil_append, List.length_nil, List.countP_nil,
              Nat.add_zero]
            have hg0 : (done ++ t :: rest').get? done.length = some t := by
              rw [List.get?_eq_getElem?]
              have h1 := getElem?_append_len done (t :: rest')
              simpa using h1
            have hstep : pnnGo (fuel + 1) (done ++ t :: rest') done.length 0 0
                = pnnGo fuel (done ++ t :: rest') (done.length + 1) 0 0 := by
              rw [pnnGo, hg0]
              simp only []
              rw [if_neg ht1, if_neg ht2]
              rfl
            rw [hstep, collapseGo_nonsign_nil _ _ _ hns]
            have ih2 := ih (done ++ [t]) [] rest' (by simp at hf ⊢; omega)
            simpa [List.getLast?_concat] using ih2
          | cons h0 tr =>
            have hcond : ∀ c : String,
                (decide (done.length = 0) ||
                  prevTriggers ((done ++ c :: t :: rest').get? (done.length - 1)))
                = unaryContext done.getLast? := by
              intro c
              cases done with
              | nil => simp [prevTriggers, unaryContext]
              | cons a d' =>
                rw [List.get?_eq_getElem?, getElem?_pred_append _ _ (by simp)]
                obtain ⟨p, hp⟩ := Option.isSome_iff_exists.mp
                  (List.getLast?_isSome.mpr (show (a :: d') ≠ [] by simp))
                rw [hp]
                simp [prevTriggers, unaryContext]
            have htake : (done ++ (h0 :: tr) ++ t :: rest').take (done.length + 1)
                = done ++ [h0] := by
              rw [List.append_assoc]
              have h3 := take_append_len_add done ((h0 :: tr) ++ t :: rest') 1
              simpa using h3
            have hdrop : (done ++ (h0 :: tr) ++ t :: rest').drop (done.length + (tr.length + 1))
                = t :: rest' := by
              have h4 := List.drop_left (done ++ (h0 :: tr)) (t :: rest')
              simp only [List.length_append, List.length_cons] at h4
              simp only [List.append_assoc] at h4 ⊢
              exact h4
            rw [collapseGo_resolve _ _ _ _ _ hns]
            have hlist : done ++ [h0] ++ t :: rest' = done ++ h0 :: t :: rest' := by simp
            by_cases hpar : ((h0 :: tr).countP (fun x => x = "-")) % 2 = 0
            · cases hu : unaryContext done.getLast? with
              | true =>
                have hstep : pnnGo (fuel + 1) (done ++ (h0 :: tr) ++ t :: rest')
                    (done.length + (h0 :: tr).length)
                    ((h0 :: tr).countP (fun x => x = "-")) (h0 :: tr).length
                    = pnnGo fuel (done ++ t :: rest') (done.length + 1) 0 0 := by
                  rw [pnnGo, hg]
                  simp only []
                  rw [if_neg ht1, if_neg ht2]
                  simp only [List.length_cons, Nat.add_sub_cancel]
                  rw [if_pos (Nat.succ_ne_zero tr.length)]
                  simp only [htake, hdrop]
                  simp only [if_pos hpar]
                  rw [hlist, set_append_len done h0 (t :: rest') "+"]
                  rw [hcond "+", hu]
                  rw [if_pos rfl]
                  rw [if_neg (by decide : ¬("+" : String) = "-")]
                  rw [eraseIdx_append_len done "+" (t :: rest')]
                rw [hstep, if_pos hpar]
                simp only [hu, if_true]
                have ih2 := ih (done ++ [t]) [] rest' (by simp at hf ⊢; omega)
                simpa [List.getLast?_concat, collapseGo_nonsign_nil _ t rest' hns] using ih2
              | false =>
                have hstep : pnnGo (fuel + 1) (done ++ (h0 :: tr) ++ t :: rest')
                    (done.length + (h0 :: tr).length)
                    ((h0 :: tr).countP (fun x => x = "-")) (h0 :: tr).length
                    = pnnGo fuel (done ++ "+" :: t :: rest') (done.length + 1) 0 0 := by
                  rw [pnnGo, hg]
                  simp only []
                  rw [if_neg ht1, if_neg ht2]
                  simp only [List.length_cons, Nat.add_sub_cancel]
                  rw [if_pos (Nat.succ_ne_zero tr.length)]
                  simp only [htake, hdrop]
                  simp only [if_pos hpar]
                  rw [hlist, set_append_len done h0 (t :: rest') "+"]
                  rw [hcond "+", hu]
                  rw [if_neg (by decide : ¬(false = true))]
                rw [hstep, if_pos hpar]
                simp only [hu, Bool.false_eq_true, if_false]
                have ih2 := ih (done ++ ["+"]) [] (t :: rest') (by simp at hf ⊢; omega)
                simpa [List.getLast?_concat, collapseGo_nonsign_nil _ t rest' hns] using ih2
            · cases hu : unaryContext done.getLast? with
              | true =>
                have hstep : pnnGo (fuel + 1) (done ++ (h0 :: tr) ++ t :: rest')
                    (done.length + (h0 :: tr).length)
                    ((h0 :: tr).countP (fun x => x = "-")) (h0 :: tr).length
                    = pnnGo fuel (done ++ "-u" :: t :: rest') (done.length + 1) 0 0 := by
                  rw [pnnGo, hg]
                  simp only []
                  rw [if_neg ht1, if_neg ht2]
                  simp only [List.length_cons, Nat.add_sub_cancel]
                  rw [if_pos (Nat.succ_ne_zero tr.length)]
                  simp only [htake, hdrop]
                  simp only [if_neg hpar]
                  rw [hlist, set_append_len done h0 (t :: rest') "-"]
                  rw [hcond "-", hu]
                  simp [set_append_len]
                rw [hstep, if_neg hpar]
                simp only [hu, if_true]
                have ih2 := ih (done ++ ["-u"]) [] (t :: rest') (by simp at hf ⊢; omega)
                simpa [List.getLast?_concat, collapseGo_nonsign_nil _ t rest' hns] using ih2
              | false =>
                have hstep : pnnGo (fuel + 1) (done ++ (h0 :: tr) ++ t :: rest')
                    (done.length + (h0 :: tr).length)
                    ((h0 :: tr).countP (fun x => x = "-")) (h0 :: tr).length
                    = pnnGo fuel (done ++ "-" :: t :: rest') (done.length + 1) 0 0 := by
                  rw [pnnGo, hg]
                  simp only []
                  rw [if_neg ht1, if_neg ht2]
                  simp only [List.length_cons, Nat.add_sub_cancel]
                  rw [if_pos (Nat.succ_ne_zero tr.length)]
                  simp only [htake, hdrop]
                  simp only [if_neg hpar]
                  rw [hlist, set_append_len done h0 (t :: rest') "-"]
                  rw [hcond "-", hu]
                  rw [if_neg (by decide : ¬(false = true))]
                rw [hstep, if_neg hpar]
                simp only [hu, Bool.false_eq_true, if_false]
                have ih2 := ih (done ++ ["-"]) [] (t :: rest') (by simp at hf ⊢; omega)
                simpa [List.getLast?_concat, collapseGo_nonsign_nil _ t rest' hns] using ih2


/-- `process_negative_numbers` agrees with the run-collapsing
normalizer on every token list. -/
theorem pnn_eq_collapseRuns (e : List String) :
    process_negative_numbers e = collapseRuns e := by
  have h := pnnGo_eq_collapseGo (2 * e.length + 1) [] [] e (by simp)
  simpa [process_negative_numbers, collapseRuns] using h


/-! ## Evaluator indexing lemmas -/

theorem get?_append_add {α : Type} (l₁ l₂ : List α) (k : Nat) :
    (l₁ ++ l₂).get? (l₁.length + k) = l₂.get? k := by
  induction l₁ with
  | nil => simp
  | cons a l ihl => simpa [Nat.succ_add] using ihl

theorem pyGet_append {α : Type} (l₁ l₂ : List α) (k : Nat) (hk : k < l₂.length) :
    pyGet (l₁ ++ l₂) ((l₁.length : Int) + (k : Int)) = l₂.get? k := by
  unfold pyGet pyIdx
  rw [if_pos (by omega : (0 : Int) ≤ (l₁.length : Int) + (k : Int))]
  rw [if_pos (show (l₁.length : Int) + (k : Int) < ((l₁ ++ l₂).length : Int) by
    simp [List.length_append]; omega)]
  rw [show ((l₁.length : Int) + (k : Int)).toNat = l₁.length + k by omega]
  exact get?_append_add l₁ l₂ k

theorem pySliceTo_len {α : Type} (l₁ l₂ : List α) :
    pySliceTo (l₁ ++ l₂) (l₁.length : Int) = l₁ := by
  unfold pySliceTo pyClamp
  rw [if_neg (by omega : ¬(l₁.length : Int) < 0)]
  rw [show ((l₁.length : Int)).toNat = l₁.length by omega]
  rw [show min l₁.length (l₁ ++ l₂).length = l₁.length by simp]
  exact List.take_left l₁ l₂

theorem pySliceFrom_len {α : Type} (l₁ l₂ : List α) :
    pySliceFrom (l₁ ++ l₂) (l₁.length : Int) = l₂ := by
  unfold pySliceFrom pyClamp
  rw [if_neg (by omega : ¬(l₁.length : Int) < 0)]
  rw [show ((l₁.length : Int)).toNat = l₁.length by omega]
  rw [show min l₁.length (l₁ ++ l₂).length = l₁.length by simp]
  exact List.drop_left l₁ l₂

/-! ## Converter lemmas -/

theorem popTilParen_no_paren : ∀ (ops : List StackEntry) (res : List Elem),
    StackEntry.op "(" ∉ ops → popTilParen ops res = (res ++ ops.map entryToElem, []) := by
  intro ops
  induction ops with
  | nil => intro res _; simp [popTilParen]
  | cons top rest ihp =>
    intro res h
    have h1 : ¬top = .op "(" := by
      intro hh
      exact h (hh ▸ List.mem_cons_self _ _)
    have h2 : StackEntry.op "(" ∉ rest := fun hh => h (List.mem_cons_of_mem _ hh)
    rw [popTilParen, if_neg h1, ihp (res ++ [entryToElem top]) h2]
    simp

/-! ## Claim theorems -/

/-- Claim C1, counterexample: on the token list `1 < - 2` the sign
normalizer of the source keeps the collapsed `-` as a binary
operator, because its trigger set (`ARITHMETICAL_OPERATIONS`, `(`,
`,`) does not contain the comparison operators, while the claim —
whose unary contexts include "operator (arithmetic or comparison)" —
demands the unary-minus marker `-u` there. -/
theorem c1_counterexample :
    process_negative_numbers ["1", "<", "-", "2"] = ["1", "<", "-", "2"] ∧
    collapseClaim ["1", "<", "-", "2"] = ["1", "<", "-u", "2"] ∧
    process_negative_numbers ["1", "<", "-", "2"] ≠ collapseClaim ["1", "<", "-", "2"] := by
  refine ⟨by with_unfolding_all rfl, by with_unfolding_all rfl, ?_⟩
  rw [show collapseClaim ["1", "<", "-", "2"] = ["1", "<", "-u", "2"] from by
    with_unfolding_all rfl]
  rw [show process_negative_numbers ["1", "<", "-", "2"] = ["1", "<", "-", "2"] from by
    with_unfolding_all rfl]
  decide

/-- Claim C1, amended: every maximal run of consecutive `+`/`-`
tokens that is followed by another token is collapsed to a single
sign (`+` if the number of minuses is even, `-` if odd); the
collapsed sign is unary exactly when the run starts the expression
or the previously resolved token is an arithmetical operator
(including the `-u` marker), `(` or `,` — a collapsed `-` becomes
the `-u` marker and a collapsed `+` is dropped — and otherwise it is
kept as a binary operator; a trailing run is left untouched.  This
is `collapseRuns`, and `process_negative_numbers` computes it on
every token list. -/
theorem c1_normalizer_collapses_runs (e : List String) :
    process_negative_numbers e = collapseRuns e :=
  pnn_eq_collapseRuns e

set_option maxRecDepth 8000 in
/-- Claim C2: `^` is right-associative while all other operators are
left-associative: an incoming `^` never pops a stacked `^` (first
conjunct, for every stack and output), and consequently
`calculate("2^3^4")` is `2^(3^4) = 2^81`, not `(2^3)^4 = 4096`. -/
theorem c2_caret_right_assoc :
    (∀ (ops : List StackEntry) (res : List Elem),
      popArith "^" (.op "^" :: ops) res = .ok (res, .op "^" :: ops)) ∧
    calculate "2^3^4" = .ok (.num (.finite 2417851639229258349412352)) := by
  constructor
  · intro ops res
    rfl
  · with_unfolding_all rfl

/-- Claim C3: the precedence table assigns comparisons and
parentheses 0, `+ -` 1, `* / // %` 2, `^` 3 and the unary-minus
marker `-u` 4; an incoming arithmetic operator pops stacked
operators of precedence greater than or equal to its own — strictly
greater when it is the right-associative `^` (second and third
conjuncts state the pop and no-pop directions of the loop guard); in
particular an incoming `^` pops a pending `-u`, and
`calculate("-2^2")` is `(-2)^2 = 4`. -/
theorem c3_precedence_table_and_pops :
    (PRECEDENCE.lookup "==" = some 0 ∧ PRECEDENCE.lookup "!=" = some 0 ∧
     PRECEDENCE.lookup "<" = some 0 ∧ PRECEDENCE.lookup ">" = some 0 ∧
     PRECEDENCE.lookup "<=" = some 0 ∧ PRECEDENCE.lookup ">=" = some 0 ∧
     PRECEDENCE.lookup "(" = some 0 ∧ PRECEDENCE.lookup ")" = some 0 ∧
     PRECEDENCE.lookup "+" = some 1 ∧ PRECEDENCE.lookup "-" = some 1 ∧
     PRECEDENCE.lookup "*" = some 2 ∧ PRECEDENCE.lookup "/" = some 2 ∧
     PRECEDENCE.lookup "//" = some 2 ∧ PRECEDENCE.lookup "%" = some 2 ∧
     PRECEDENCE.lookup "^" = some 3 ∧ PRECEDENCE.lookup "-u" = some 4) ∧
    (∀ (tok top : String) (ptok ptop : Nat) (ops : List StackEntry) (res : List Elem),
      PRECEDENCE.lookup tok = some ptok → PRECEDENCE.lookup top = some ptop →
      (if tok ∈ RIGHT_ASSOC then ptop > ptok else ptop ≥ ptok) →
      popArith tok (.op top :: ops) res = popArith tok ops (res ++ [.str top])) ∧
    (∀ (tok top : String) (ptok ptop : Nat) (ops : List StackEntry) (res : List Elem),
      PRECEDENCE.lookup tok = some ptok → PRECEDENCE.lookup top = some ptop →
      ¬(if tok ∈ RIGHT_ASSOC then ptop > ptok else ptop ≥ ptok) →
      popArith tok (.op top :: ops) res = .ok (res, .op top :: ops)) ∧
    popArith "^" [.op "-u"] [] = .ok ([.str "-u"], []) ∧
    calculate "-2^2" = .ok (.num (.finite 4)) := by
  refine ⟨?_, ?_, ?_, ?_, ?_⟩
  · exact ⟨rfl, rfl, rfl, rfl, rfl, rfl, rfl, rfl, rfl, rfl, rfl, rfl, rfl, rfl, rfl, rfl⟩
  · intro tok top ptok ptop ops res h1 h2 h3
    have hbreak : ¬((tok ∈ RIGHT_ASSOC ∧ ¬ptop > ptok) ∨ ¬ptop ≥ ptok) := by
      by_cases hra : tok ∈ RIGHT_ASSOC <;> simp [hra] at h3 ⊢ <;> omega
    rw [popArith]
    simp only [precOf]
    rw [h2, h1]
    simp only []
    rw [if_neg hbreak]
    rfl
  · intro tok top ptok ptop ops res h1 h2 h3
    have hbreak : (tok ∈ RIGHT_ASSOC ∧ ¬ptop > ptok) ∨ ¬ptop ≥ ptok := by
      by_cases hra : tok ∈ RIGHT_ASSOC <;> simp [hra] at h3 ⊢ <;> omega
    rw [popArith]
    simp only [precOf]
    rw [h2, h1]
    simp only []
    rw [if_pos hbreak]
  · rfl
  · with_unfolding_all rfl

/-- Witness for C3: the pop rule applied at the concrete instance of
the claim — an incoming `^` (precedence 3) pops a stacked `-u`
(precedence 4). -/
theorem c3_witness :
    popArith "^" [StackEntry.op "-u"] [] = popArith "^" [] [Elem.str "-u"] := by
  have h := c3_precedence_table_and_pops.2.1 "^" "-u" 3 4 [] [] rfl rfl (by decide)
  simpa using h

/-- Claim C4: when the evaluator reaches a binary arithmetic or
comparison operator, it takes the two operand slots before it in
order — the first-taken (deeper, earlier) operand is the left
operand — applies the operator, and replaces operands and operator
with the result. -/
theorem c4_binary_operand_order (reg : Registry) (pre rest : List Elem) (s : String)
    (a b r : PyVal)
    (hs : s ∈ ARITH_KEYS ∨ s ∈ COMP_KEYS) (hsu : ¬s = "-u")
    (hr : applyBin s a b = some r) :
    evalStep reg (pre ++ [.val a, .val b, .str s] ++ rest) ((pre.length : Int) + 2)
      = .ok (pre ++ [.val r] ++ rest, (pre.length : Int)) := by
  unfold evalStep
  rw [List.append_assoc]
  rw [show ((pre.length : Int) + 2) = ((pre.length : Int) + ((2 : Nat) : Int)) by omega]
  rw [pyGet_append pre ([Elem.val a, Elem.val b, Elem.str s] ++ rest) 2 (by simp)]
  simp only [List.cons_append, List.nil_append, List.get?]
  rw [if_neg hsu, if_pos hs]
  rw [show (pre.length : Int) + ((2 : Nat) : Int) - 2 = (pre.length : Int) + ((0 : Nat) : Int) by
    omega]
  rw [pyGet_append pre (Elem.val a :: Elem.val b :: Elem.str s :: rest) 0 (by simp)]
  rw [show (pre.length : Int) + ((2 : Nat) : Int) - 1 = (pre.length : Int) + ((1 : Nat) : Int) by
    omega]
  rw [pyGet_append pre (Elem.val a :: Elem.val b :: Elem.str s :: rest) 1 (by simp)]
  simp only [List.get?]
  rw [hr]
  rw [show (pre.length : Int) + ((0 : Nat) : Int) = (pre.length : Int) by omega]
  rw [pySliceTo_len pre (Elem.val a :: Elem.val b :: Elem.str s :: rest)]
  rw [show (pre.length : Int) + ((2 : Nat) : Int) + 1
      = (((pre ++ [Elem.val a, Elem.val b, Elem.str s]).length : Int)) by
    push_cast [List.length_append, List.length_cons, List.length_nil]
    ring]
  rw [show pre ++ (Elem.val a :: Elem.val b :: Elem.str s :: rest)
      = (pre ++ [Elem.val a, Elem.val b, Elem.str s]) ++ rest from by simp]
  rw [pySliceFrom_len (pre ++ [Elem.val a, Elem.val b, Elem.str s]) rest]

/-- Witness for C4: the step at `5 3 -` computes `5 - 3 = 2` — the
earlier operand `5` is the left operand. -/
theorem c4_witness :
    evalStep mathRegistry
      [Elem.val (.num (.finite 5)), Elem.val (.num (.finite 3)), Elem.str "-"] 2
      = .ok ([Elem.val (.num (.finite 2))], 0) := by
  have h := c4_binary_operand_order mathRegistry [] [] "-"
    (.num (.finite 5)) (.num (.finite 3)) (.num (.finite 2))
    (by decide) (by decide) (by with_unfolding_all rfl)
  simpa using h

/-- Claim C5: comparisons share one precedence tier and chain left to
right as nested binary applications: `1<2<3` converts to the postfix
stream `1 2 < 3 <`, the boolean result of `1 < 2` is compared with
`3` as the numeric value 1, and the whole expression is truthy. -/
theorem c5_comparison_chaining :
    expression_to_rpn mathRegistry ["1", "<", "2", "<", "3"] =
      .ok [.val (.num (.finite 1)), .val (.num (.finite 2)), .str "<",
           .val (.num (.finite 3)), .str "<"] ∧
    applyBin "<" (.bool true) (.num (.finite 3)) = some (.bool true) ∧
    calculate "1<2<3" = .ok (.bool true) := by
  refine ⟨?_, ?_, ?_⟩ <;> with_unfolding_all rfl

/-- Claim C6: `hypot(3, 4)` is 5 — the function marker is pushed
with arity 1, the top-level comma bumps the arity of the nearest
function marker to 2 (second conjunct shows the bump on the stack as
it stands when the comma is read), the converter emits
`3 4 {hypot, 2}`, and the evaluator applies the registry function to
the two operands in original left-to-right order. -/
theorem c6_hypot_variadic_arity :
    expression_to_rpn mathRegistry ["hypot", "(", "3", ",", "4", ")"] =
      .ok [.val (.num (.finite 3)), .val (.num (.finite 4)), .marker "hypot" 2] ∧
    bumpNearestFunc [.op "(", .func "hypot" 1] = some [.op "(", .func "hypot" 2] ∧
    mathApply "hypot" [.num (.finite 3), .num (.finite 4)] = some (.num (.finite 5)) ∧
    calculate "hypot(3, 4)" = .ok (.num (.finite 5)) := by
  refine ⟨?_, ?_, ?_, ?_⟩ <;> with_unfolding_all rfl

/-- Claim C7, counterexample: `calculate("abs()")` does not fail with
the arity error (`Incorrect arguments for function`, the source's
`InvalidArityError`): the call's marker keeps its initial arity 1,
the RPN stream is the lone marker, the evaluator's loop never runs
on a one-element list, and the final check fails with `Incorrect
expression` — the spec's `InvalidFinalResultError`. -/
theorem c7_counterexample :
    calculate "abs()" = .error .incorrectExpression ∧
    CalcError.incorrectExpression ≠ CalcError.incorrectFunctionArgs := by
  exact ⟨by with_unfolding_all rfl, by decide⟩

/-- Claim C7, amended: `calculate("hypot(2,3,4)")` fails with the
arity error (`Incorrect arguments for function`, the registry's
fixed arity-2 `hypot` rejecting three arguments), while
`calculate("abs()")` fails with the final-result error (`Incorrect
expression`), not the arity error. -/
theorem c7_arity_errors :
    calculate "hypot(2,3,4)" = .error .incorrectFunctionArgs ∧
    calculate "abs()" = .error .incorrectExpression := by
  exact ⟨by with_unfolding_all rfl, by with_unfolding_all rfl⟩

/-- Claim C8, counterexample: a whitespace-only input does not fail
with `EmptyExpressionError`: three spaces tokenize to the empty
token list without error, and `calculate` then fails with the
evaluator's out-of-bounds access (`IndexError`) on the empty RPN. -/
theorem c8_counterexample :
    parse_expression "   " = .ok [] ∧
    calculate "   " = .error .indexError ∧
    CalcError.indexError ≠ CalcError.emptyExpression := by
  exact ⟨by with_unfolding_all rfl, by with_unfolding_all rfl, by decide⟩

/-- Claim C8, amended: the tokenizer fails with
`EmptyExpressionError` exactly when the input is the empty string;
whitespace-only non-empty input passes the tokenizer (yielding an
empty token list) and fails later with a different error. -/
theorem c8_empty_expression :
    (∀ s : String, parse_expression s = .error .emptyExpression ↔ s = "") ∧
    calculate "" = .error .emptyExpression := by
  constructor
  · intro s
    by_cases hs : s = "" <;> simp [parse_expression, hs]
  · with_unfolding_all rfl

/-- Witness for C8: the empty string is rejected by the tokenizer
with the empty-expression error. -/
theorem c8_witness : parse_expression "" = .error .emptyExpression :=
  (c8_empty_expression.1 "").mpr rfl

/-- Claim C9, counterexample: a leftover `(` at end of input is not
an `UnmatchedParenthesisError` (`incorrectBrackets`): conversion of
`( 123` succeeds, draining the `(` into the RPN output, and
`calculate("(123")` then fails with the evaluator's out-of-bounds
access (`IndexError`). -/
theorem c9_counterexample :
    expression_to_rpn mathRegistry ["(", "123"] =
      .ok [.val (.num (.finite 123)), .str "("] ∧
    calculate "(123" = .error .indexError ∧
    CalcError.indexError ≠ CalcError.incorrectBrackets := by
  exact ⟨by with_unfolding_all rfl, by with_unfolding_all rfl, by decide⟩

/-- Claim C9, amended: a `)` for which the operator stack holds no
`(` fails with `UnmatchedParenthesisError` (`incorrectBrackets`, for
every stack without a `(`); a leftover `(` at end of input is not
detected by the converter — it is drained into the output and
evaluation fails later with a structural index error. -/
theorem c9_unmatched_paren :
    (∀ (ops : List StackEntry) (res : List Elem),
      StackEntry.op "(" ∉ ops → rparenStep res ops = .error .incorrectBrackets) ∧
    expression_to_rpn mathRegistry ["(", "123"] =
      .ok [.val (.num (.finite 123)), .str "("] ∧
    calculate "(123" = .error .indexError := by
  refine ⟨?_, by with_unfolding_all rfl, by with_unfolding_all rfl⟩
  intro ops res h
  unfold rparenStep
  rw [popTilParen_no_paren ops res h]

/-- Witness for C9: a `)` meeting a stack holding only a `+`. -/
theorem c9_witness : rparenStep [] [StackEntry.op "+"] = .error .incorrectBrackets :=
  c9_unmatched_paren.1 [StackEntry.op "+"] [] (by decide)

/-- Claim C10: the converter attempts the host float parser on every
token before any registry lookup — whenever `float(token)` succeeds
the token is pushed to the output as that numeric literal, for every
registry (first conjunct) — and the parser accepts not only plain
decimals but `1e3`, `nan`, `inf` and `Infinity`; so a name that also
parses as a float (such as `inf`, which the registry also maps to a
constant) resolves as a number, never through the registry. -/
theorem c10_float_parse_first :
    (∀ (reg : Registry) (rest : List String) (res : List Elem) (ops : List StackEntry)
      (t : String) (v : PyFloat), pyFloatParse t = some v →
      toRpnGo reg (t :: rest) res ops = toRpnGo reg rest (res ++ [.val (.num v)]) ops) ∧
    pyFloatParse "1e3" = some (.finite 1000) ∧
    pyFloatParse "nan" = some .nan ∧
    pyFloatParse "inf" = some .inf ∧
    pyFloatParse "Infinity" = some .inf ∧
    mathRegistry.constants.lookup "inf" = some .inf ∧
    clashRegistry.constants.lookup "inf" = some (.finite 999) := by
  refine ⟨?_, by with_unfolding_all rfl, by with_unfolding_all rfl, by with_unfolding_all rfl,
    by with_unfolding_all rfl, rfl, rfl⟩
  intro reg rest res ops t v h
  rw [toRpnGo, h]

/-- Witness for C10: the token `inf` is pushed as the float literal
`inf` even under a registry that binds the constant `inf` to 999. -/
theorem c10_witness :
    toRpnGo clashRegistry ["inf"] [] [] = toRpnGo clashRegistry [] [Elem.val (.num .inf)] [] := by
  have h := c10_float_parse_first.1 clashRegistry [] [] [] "inf" .inf (by with_unfolding_all rfl)
  simpa using h

end PyCalc
